import Mathlib

/-!
# Geometry2D: orientation, distance and intersection helpers

Shallow embedding of `src/utils/asm/geometry2d.c`.

The C functions take `float` scalars.  They are read here in exact arithmetic:
the functions that only add, subtract, multiply and compare are written once
for every linearly ordered field `α` (so they run on `ℚ` and hold on `ℝ`), and
the functions that call `sqrt` are written over `ℝ` with `Real.sqrt`.
Rounding, overflow and NaN of IEEE single precision are outside this model.

C's `bool` is `int` with `true = 1`, `false = 0`; a comparison is modelled as
a `Bool`.  `linesIntersect` is declared `float` in the source, so it returns a
number (`1` or `0`) here as well.
-/

namespace Geometry2d

/-! ## Functions without square root (any linearly ordered field) -/

section Exact

variable {α : Type} [LinearOrderedField α]

/-- Source `ccw`, lines 6-12:
`return (yC - yA) * (xB - xA) > (yB - yA) * (xC - xA);` -/
def ccw (xA yA xB yB xC yC : α) : Bool :=
  decide ((yC - yA) * (xB - xA) > (yB - yA) * (xC - xA))

/-- Source `ccw2`, lines 14-19: `return yAC * xAB > yAB * xAC;` -/
def ccw2 (xAB yAB xAC yAC : α) : Bool :=
  decide (yAC * xAB > yAB * xAC)

/-- Source `squareMagnitude`, lines 21-24. -/
def squareMagnitude (x y : α) : α :=
  x * x + y * y

/-- Source `dotProduct`, lines 31-36. -/
def dotProduct (xA yA xB yB : α) : α :=
  xA * xB + yA * yB

/-- Source `vectorProduct`, lines 38-43. -/
def vectorProduct (xA yA xB yB : α) : α :=
  xA * yB - yA * xB

/-- Source `squareEuclideanDistance`, lines 45-51. -/
def squareEuclideanDistance (xA yA xB yB : α) : α :=
  let dX := xB - xA
  let dY := yB - yA
  dX * dX + dY * dY

/-- Source `linesIntersect`, lines 104-121.  The assignment
`xBC = yC - xB` is the source's (line 112), kept as written. -/
def linesIntersect (xA yA xB yB xC yC xD yD : α) : α :=
  let xAC := xC - xA
  let yAC := yC - yA
  let xAD := xD - xA
  let yAD := yD - yA
  let xBC := yC - xB
  let yBC := yC - yB
  let xBD := xD - xB
  let yBD := yD - yB
  if ccw2 xAC yAC xAD yAD != ccw2 xBC yBC xBD yBD then
    let xAB := xB - xA
    let yAB := yB - yA
    if ccw2 xAB yAB xAC yAC != ccw2 xAB yAB xAD yAD then 1 else 0
  else 0

variable [FloorRing α]

/-- Conversion of a `float` to `int` as C performs it: the fractional part is
discarded (rounding toward zero). -/
def truncToInt (x : α) : ℤ :=
  if 0 ≤ x then ⌊x⌋ else ⌈x⌉

/-- The C library's `int abs(int)`, as the source reaches it: the file only
includes `math.h`, which declares no `abs`, so the call resolves to the
integer function of `stdlib.h`; its `float` argument is converted to `int`,
and the `int` result converted back to `float`. -/
def cAbs (x : α) : α :=
  ((|truncToInt x| : ℤ) : α)

/-- Source `manhattanDistance`, lines 61-67: `return abs(dX + dY);` -/
def manhattanDistance (xA yA xB yB : α) : α :=
  let dX := xB - xA
  let dY := yB - yA
  cAbs (dX + dY)

/-- Source `diagonalDistance`, lines 69-75. -/
def diagonalDistance (xA yA xB yB : α) : α :=
  let dX := cAbs (xB - xA)
  let dY := cAbs (yB - yA)
  if dX > dY then dX else dY

end Exact

/-! ## Functions calling `sqrt` (exact real arithmetic) -/

/-- Source `magnitude`, lines 26-29. -/
noncomputable def magnitude (x y : ℝ) : ℝ :=
  Real.sqrt (x * x + y * y)

/-- Source `euclideanDistance`, lines 53-59. -/
noncomputable def euclideanDistance (xA yA xB yB : ℝ) : ℝ :=
  let dX := xB - xA
  let dY := yB - yA
  Real.sqrt (dX * dX + dY * dY)

/-- Source `circlesIntersect`, lines 77-83. -/
noncomputable def circlesIntersect (xC1 yC1 r1 xC2 yC2 r2 : ℝ) : Bool :=
  let d := euclideanDistance xC1 yC1 xC2 yC2
  decide (d < r1 + r2) && decide (r1 < d + r2) && decide (r2 < d + r1)

/-- Source `circleLineIntersect`, lines 84-102.  Line 88 reads
`(dist(A,C) < r) != dist(B,C) < r`; in C `<` binds tighter than `!=`, so the
right operand of `!=` is the comparison `dist(B,C) < r`.  The source does not
guard `m = 0`; Lean's `x / 0 = 0` stands in for it and every statement about
this function below assumes `A ≠ B`, or does not reach the division. -/
noncomputable def circleLineIntersect (xC yC r xA yA xB yB : ℝ) : Bool :=
  if decide (euclideanDistance xA yA xC yC < r)
      != decide (euclideanDistance xB yB xC yC < r) then true
  else
    let xAC := xC - xA
    let yAC := yC - yA
    let xU := xB - xA
    let yU := yB - yA
    let m := magnitude xU yU
    let xU := xU / m
    let yU := yU / m
    let d := dotProduct xU yU xAC yAC
    let l := euclideanDistance xA yA xB yB
    if d < 0 ∨ d > l then false
    else
      let xU := xU * d + xA
      let yU := yU * d + yA
      decide (squareEuclideanDistance xU yU xC yC ≤ r * r)

/-! ## Geometric vocabulary used to state the properties -/

section Vocabulary

variable {α : Type} [LinearOrderedField α]

/-- The point `P` lies on the closed segment `AB`. -/
def OnSegment (xA yA xB yB xP yP : α) : Prop :=
  ∃ t : α, 0 ≤ t ∧ t ≤ 1 ∧ xP = xA + t * (xB - xA) ∧ yP = yA + t * (yB - yA)

/-- The closed segments `AB` and `CD` have a point in common. -/
def SegmentsMeet (xA yA xB yB xC yC xD yD : α) : Prop :=
  ∃ xP yP : α, OnSegment xA yA xB yB xP yP ∧ OnSegment xC yC xD yD xP yP

/-- The points `P` and `Q` lie strictly on opposite sides of the line through
`A` and `B`: the cross products of `AB` with `AP` and with `AQ` have
opposite, nonzero signs. -/
def StrictlyOpposite (xA yA xB yB xP yP xQ yQ : α) : Prop :=
  vectorProduct (xB - xA) (yB - yA) (xP - xA) (yP - yA)
    * vectorProduct (xB - xA) (yB - yA) (xQ - xA) (yQ - yA) < 0

end Vocabulary

/-! ## Orientation tests -/

section Orientation

variable {α : Type} [LinearOrderedField α]

/-- C9: `ccw(A, B, C)` is `ccw2` applied to the vectors `B - A` and `C - A`
anchored at `A`. -/
theorem ccw_eq_ccw2_anchored (xA yA xB yB xC yC : α) :
    ccw xA yA xB yB xC yC = ccw2 (xB - xA) (yB - yA) (xC - xA) (yC - yA) := by
  simp only [ccw, ccw2]

/-- C10 as stated fails: for `AB = (1,0)`, `AC = (0,1)` the test `ccw2` is
true while `vectorProduct(AC, AB) = -1` is not positive. -/
theorem ccw2_not_iff_vectorProduct_AC_AB_pos :
    ¬ (ccw2 (1:ℚ) 0 0 1 = true ↔ vectorProduct (0:ℚ) 1 1 0 > 0) := by
  norm_num [ccw2, vectorProduct]

/-- C10, amended: `ccw2(AB, AC)` is true exactly when the library's cross
product `vectorProduct(AB, AC)` is positive, that is when
`vectorProduct(AC, AB)` is negative. -/
theorem ccw2_iff_vectorProduct (xAB yAB xAC yAC : α) :
    (ccw2 xAB yAB xAC yAC = true ↔ vectorProduct xAB yAB xAC yAC > 0) ∧
    (ccw2 xAB yAB xAC yAC = true ↔ vectorProduct xAC yAC xAB yAB < 0) := by
  simp only [ccw2, vectorProduct, decide_eq_true_eq, gt_iff_lt, sub_pos, sub_neg]
  constructor
  · rw [mul_comm yAC xAB, mul_comm yAB xAC]
  · rw [mul_comm xAC yAB]

end Orientation

/-! ## Segment-segment intersection -/

/-- C1: the crossing diagonals `A = (0,0)`, `B = (4,4)`, `C = (0,4)`,
`D = (4,0)` satisfy both strict opposite-side conditions, and the source's
`linesIntersect` returns `0` (false) on them. -/
theorem linesIntersect_crossing_diagonals :
    StrictlyOpposite (0:ℚ) 0 4 4 0 4 4 0 ∧ StrictlyOpposite (0:ℚ) 4 4 0 0 0 4 4 ∧
    linesIntersect (0:ℚ) 0 4 4 0 4 4 0 = 0 := by
  norm_num [StrictlyOpposite, vectorProduct, linesIntersect, ccw2]

/-- C2: for `A = (0,0)`, `B = (3,0)`, `C = (5,-1)`, `D = (5,1)` the source's
`linesIntersect` returns `1` (true) although the two segments have no point
in common. -/
theorem linesIntersect_disjoint_positive :
    linesIntersect (0:ℚ) 0 3 0 5 (-1) 5 1 = 1 ∧
    ¬ SegmentsMeet (0:ℚ) 0 3 0 5 (-1) 5 1 := by
  refine ⟨by norm_num [linesIntersect, ccw2], ?_⟩
  rintro ⟨xP, yP, ⟨s, _, hs1, hxs, _⟩, ⟨t, _, _, hxt, _⟩⟩
  have h5 : xP = 5 := by rw [hxt]; ring
  rw [h5] at hxs
  linarith

/-! ## Distances -/

/-- C4: at `A = (0,0)`, `B = (1,-1)` the source's `manhattanDistance` is `0`,
while `|xB - xA| + |yB - yA|` is `2`. -/
theorem manhattanDistance_opposite_signs :
    manhattanDistance (0:ℚ) 0 1 (-1) = 0 ∧ |(1:ℚ) - 0| + |(-1:ℚ) - 0| = 2 := by
  refine ⟨?_, by norm_num⟩
  norm_num [manhattanDistance, cAbs, truncToInt]

/-! ## Square roots: shared facts -/

theorem euclideanDistance_eq_magnitude (xA yA xB yB : ℝ) :
    euclideanDistance xA yA xB yB = magnitude (xB - xA) (yB - yA) := rfl

theorem euclideanDistance_nonneg (xA yA xB yB : ℝ) :
    0 ≤ euclideanDistance xA yA xB yB :=
  Real.sqrt_nonneg _

theorem magnitude_horizontal (x : ℝ) : magnitude x 0 = |x| := by
  simp only [magnitude, mul_zero, add_zero]
  exact Real.sqrt_mul_self_eq_abs x

theorem euclideanDistance_horizontal (xA xB y : ℝ) :
    euclideanDistance xA y xB y = |xB - xA| := by
  rw [euclideanDistance_eq_magnitude, sub_self, magnitude_horizontal]

theorem magnitude_pos {x y : ℝ} (h : ¬ (x = 0 ∧ y = 0)) : 0 < magnitude x y := by
  apply Real.sqrt_pos.2
  rcases not_and_or.1 h with hx | hy
  · have := mul_self_pos.2 hx
    nlinarith [mul_self_nonneg y]
  · have := mul_self_pos.2 hy
    nlinarith [mul_self_nonneg x]

theorem magnitude_mul_self (x y : ℝ) :
    magnitude x y * magnitude x y = x * x + y * y :=
  Real.mul_self_sqrt (add_nonneg (mul_self_nonneg x) (mul_self_nonneg y))

/-! ## Circle-circle intersection -/

/-- C6: the test on the first line of `circleLineIntersect` is true exactly
when one endpoint is strictly inside the circle and the other is not, and in
that case the function returns true. -/
theorem circleLineIntersect_one_endpoint_inside (xC yC r xA yA xB yB : ℝ) :
    ((decide (euclideanDistance xA yA xC yC < r)
        != decide (euclideanDistance xB yB xC yC < r)) = true ↔
      (euclideanDistance xA yA xC yC < r ∧ ¬ euclideanDistance xB yB xC yC < r) ∨
      (¬ euclideanDistance xA yA xC yC < r ∧ euclideanDistance xB yB xC yC < r)) ∧
    ((euclideanDistance xA yA xC yC < r ∧ ¬ euclideanDistance xB yB xC yC < r) ∨
      (¬ euclideanDistance xA yA xC yC < r ∧ euclideanDistance xB yB xC yC < r) →
      circleLineIntersect xC yC r xA yA xB yB = true) := by
  have guard : (decide (euclideanDistance xA yA xC yC < r)
        != decide (euclideanDistance xB yB xC yC < r)) = true ↔
      (euclideanDistance xA yA xC yC < r ∧ ¬ euclideanDistance xB yB xC yC < r) ∨
      (¬ euclideanDistance xA yA xC yC < r ∧ euclideanDistance xB yB xC yC < r) := by
    by_cases hA : euclideanDistance xA yA xC yC < r <;>
      by_cases hB : euclideanDistance xB yB xC yC < r <;> simp [hA, hB]
  refine ⟨guard, fun h => ?_⟩
  unfold circleLineIntersect
  rw [if_pos (guard.2 h)]

/-- Witness for C6: circle `C = (0,0)`, `r = 2`, with `A = (1,0)` inside and
`B = (3,0)` outside. -/
theorem circleLineIntersect_one_endpoint_inside_witness :
    (euclideanDistance 1 0 0 0 < 2 ∧ ¬ euclideanDistance 3 0 0 0 < 2) ∧
    circleLineIntersect 0 0 2 1 0 3 0 = true :=
  have h : euclideanDistance 1 0 0 0 < 2 ∧ ¬ euclideanDistance 3 0 0 0 < 2 := by
    rw [euclideanDistance_horizontal, euclideanDistance_horizontal]
    norm_num
  ⟨h, (circleLineIntersect_one_endpoint_inside 0 0 2 1 0 3 0).2 (Or.inl h)⟩

/-- For a point `C = A + t (B - A)` of the line through `A ≠ B`, the
projection parameter computed on lines 90-95 is `t` times the length of
`AB`. -/
theorem projection_parameter {ux uy : ℝ} (h : ¬ (ux = 0 ∧ uy = 0)) (t : ℝ) :
    dotProduct (ux / magnitude ux uy) (uy / magnitude ux uy) (t * ux) (t * uy)
      = t * magnitude ux uy := by
  have hm := magnitude_pos h
  have hmm := magnitude_mul_self ux uy
  simp only [dotProduct]
  field_simp
  calc ux * (t * ux) + uy * (t * uy) = t * (ux * ux + uy * uy) := by ring
    _ = t * (magnitude ux uy * magnitude ux uy) := by rw [hmm]
    _ = t * magnitude ux uy * magnitude ux uy := by ring

/-- C7: for `A ≠ B`, a radius `r ≥ 0` and a centre `C` on the closed segment
`AB`, `circleLineIntersect` returns true: either line 88 already answers
true, or the projection parameter of line 95 is `t * |AB|` with
`0 ≤ t ≤ 1`, the check of line 97 passes, the projected point is `C` itself
and the squared distance of line 101 is zero. -/
theorem circleLineIntersect_through_center (xC yC r xA yA xB yB : ℝ)
    (_hr : 0 ≤ r) (hAB : ¬ (xA = xB ∧ yA = yB))
    (hC : OnSegment xA yA xB yB xC yC) :
    circleLineIntersect xC yC r xA yA xB yB = true := by
  obtain ⟨t, ht0, ht1, hx, hy⟩ := hC
  have hU : ¬ (xB - xA = 0 ∧ yB - yA = 0) := by
    rintro ⟨h1, h2⟩
    exact hAB ⟨by linarith, by linarith⟩
  have hm := magnitude_pos hU
  have hxAC : xC - xA = t * (xB - xA) := by rw [hx]; ring
  have hyAC : yC - yA = t * (yB - yA) := by rw [hy]; ring
  have hd : dotProduct ((xB - xA) / magnitude (xB - xA) (yB - yA))
      ((yB - yA) / magnitude (xB - xA) (yB - yA)) (xC - xA) (yC - yA)
      = t * magnitude (xB - xA) (yB - yA) := by
    rw [hxAC, hyAC]
    exact projection_parameter hU t
  simp only [circleLineIntersect]
  split_ifs with h1 h2
  · rfl
  · exfalso
    simp only [hd, euclideanDistance_eq_magnitude] at h2
    rcases h2 with h2 | h2
    · have := mul_nonneg ht0 hm.le
      linarith
    · have : t * magnitude (xB - xA) (yB - yA) ≤ 1 * magnitude (xB - xA) (yB - yA) :=
        mul_le_mul_of_nonneg_right ht1 hm.le
      linarith
  · simp only [hd, squareEuclideanDistance, decide_eq_true_eq]
    have e1 : (xB - xA) / magnitude (xB - xA) (yB - yA)
        * (t * magnitude (xB - xA) (yB - yA)) + xA = xC := by
      rw [hx]; field_simp; ring
    have e2 : (yB - yA) / magnitude (xB - xA) (yB - yA)
        * (t * magnitude (xB - xA) (yB - yA)) + yA = yC := by
      rw [hy]; field_simp; ring
    rw [e1, e2]
    nlinarith [mul_self_nonneg r]

/-- Witness for C7, the scenario of the specification: circle `C = (0,0)`,
`r = 1`, segment `A = (-2,0)`, `B = (2,0)`; `C` is the midpoint of `AB`. -/
theorem circleLineIntersect_through_center_witness :
    ((0:ℝ) ≤ 1 ∧ ¬ ((-2:ℝ) = 2 ∧ (0:ℝ) = 0) ∧ OnSegment (-2:ℝ) 0 2 0 0 0) ∧
    circleLineIntersect 0 0 1 (-2) 0 2 0 = true :=
  have hC : OnSegment (-2:ℝ) 0 2 0 0 0 :=
    ⟨1 / 2, by norm_num, by norm_num, by norm_num, by norm_num⟩
  ⟨⟨by norm_num, by norm_num, hC⟩,
    circleLineIntersect_through_center 0 0 1 (-2) 0 2 0 (by norm_num) (by norm_num) hC⟩

/-- C3: for the circle `C = (0,0)`, `r = 10` and the segment `A = (1,0)`,
`B = (2,0)`, which lies inside the disc (its endpoint `A` is at distance
`1 ≤ 10` from `C`), `circleLineIntersect` returns false; for the segment
`A = (-1,0)`, `B = (1,0)`, also inside the disc, it returns true. -/
theorem circleLineIntersect_segment_inside_disc :
    circleLineIntersect 0 0 10 1 0 2 0 = false ∧
    (OnSegment (1:ℝ) 0 2 0 1 0 ∧ euclideanDistance 1 0 0 0 ≤ 10) ∧
    circleLineIntersect 0 0 10 (-1) 0 1 0 = true := by
  refine ⟨?_, ⟨⟨0, by norm_num, by norm_num, by norm_num, by norm_num⟩, ?_⟩, ?_⟩
  · norm_num [circleLineIntersect, euclideanDistance_horizontal, magnitude_horizontal,
      dotProduct]
  · rw [euclideanDistance_horizontal]
    norm_num
  · norm_num [circleLineIntersect, euclideanDistance_horizontal, magnitude_horizontal,
      dotProduct, squareEuclideanDistance]

/-! ## Integer `abs` on float arguments -/

section IntegerAbs

variable {α : Type} [LinearOrderedField α] [FloorRing α]

theorem truncToInt_intCast (n : ℤ) : truncToInt (n : α) = n := by
  unfold truncToInt
  split_ifs
  · exact Int.floor_intCast n
  · exact Int.ceil_intCast n

theorem cAbs_intCast (n : ℤ) : cAbs (n : α) = ((|n| : ℤ) : α) := by
  unfold cAbs
  rw [truncToInt_intCast]

theorem cAbs_nonneg (x : α) : 0 ≤ cAbs x := by
  unfold cAbs
  exact_mod_cast abs_nonneg (truncToInt x)

theorem cAbs_le_abs (x : α) : cAbs x ≤ |x| := by
  unfold cAbs truncToInt
  split_ifs with h
  · rw [abs_of_nonneg (Int.floor_nonneg.2 h), abs_of_nonneg h]
    exact Int.floor_le x
  · have hx : x < 0 := not_le.1 h
    have hc : ⌈x⌉ ≤ 0 := Int.ceil_le.2 (by exact_mod_cast hx.le)
    rw [abs_of_nonpos hc, abs_of_neg hx]
    push_cast
    exact neg_le_neg (Int.le_ceil x)

theorem cAbs_half : cAbs (1 / 2 : α) = 0 := by
  have h : ⌊(1 / 2 : α)⌋ = 0 := by
    rw [Int.floor_eq_iff]
    norm_num
  have h0 : (0 : α) ≤ 1 / 2 := by norm_num
  unfold cAbs truncToInt
  rw [if_pos h0, h]
  simp

theorem cAbs_zero : cAbs (0 : α) = 0 := by
  have h := cAbs_intCast (α := α) 0
  simpa using h

/-- C11: at `A = (0,0)`, `B = (1/2, 0)` the source's `diagonalDistance` is `0`
while the Chebyshev distance `max(|dx|, |dy|)` is `1/2`: the integer `abs`
discards the fractional part of each difference.  On whole-number
differences the function is the Chebyshev distance. -/
theorem diagonalDistance_truncates :
    diagonalDistance (0:ℚ) 0 (1 / 2) 0 = 0 ∧
    max |(1 / 2 : ℚ) - 0| |(0:ℚ) - 0| = 1 / 2 ∧
    (∀ (xA yA : ℚ) (m n : ℤ),
      diagonalDistance xA yA (xA + m) (yA + n)
        = max |(xA + m) - xA| |(yA + n) - yA|) := by
  refine ⟨?_, by norm_num, ?_⟩
  · unfold diagonalDistance
    simp only [sub_zero, sub_self]
    rw [cAbs_half, cAbs_zero]
    simp
  · intro xA yA m n
    unfold diagonalDistance
    simp only [add_sub_cancel_left, cAbs_intCast, Int.cast_abs]
    rcases le_total |(m:ℚ)| |(n:ℚ)| with h | h
    · rw [max_eq_right h, if_neg (not_lt.2 h)]
    · rcases eq_or_lt_of_le h with h1 | h1
      · rw [h1, max_self, if_neg (lt_irrefl _)]
      · rw [max_eq_left h, if_pos h1]

/-- C17: when `dx` and `dy` have opposite signs the source's
`manhattanDistance` is strictly smaller than `|dx| + |dy|`; but it is not
equal to `|dx| + |dy|` whenever `dx * dy ≥ 0`: at `A = (0,0)`,
`B = (1/2, 0)` it is `0` while `|dx| + |dy| = 1/2`. -/
theorem manhattanDistance_truncates :
    (∀ xA yA xB yB : ℝ, (xB - xA) * (yB - yA) < 0 →
      manhattanDistance xA yA xB yB < |xB - xA| + |yB - yA|) ∧
    (((1 / 2 : ℚ) - 0) * ((0:ℚ) - 0) ≥ 0 ∧
      manhattanDistance (0:ℚ) 0 (1 / 2) 0 = 0 ∧
      |(1 / 2 : ℚ) - 0| + |(0:ℚ) - 0| = 1 / 2) := by
  refine ⟨?_, by norm_num, ?_, by norm_num⟩
  · intro xA yA xB yB h
    unfold manhattanDistance
    refine lt_of_le_of_lt (cAbs_le_abs _) ?_
    rcases mul_neg_iff.1 h with ⟨h1, h2⟩ | ⟨h1, h2⟩
    · rw [abs_of_pos h1, abs_of_neg h2, abs_lt]
      constructor <;> linarith
    · rw [abs_of_neg h1, abs_of_pos h2, abs_lt]
      constructor <;> linarith
  · unfold manhattanDistance
    simp only [sub_zero, sub_self, add_zero]
    exact cAbs_half

end IntegerAbs

/-! ## Comparing the three distances -/

/-- C13: at `A = (0,0)`, `B = (1,-1)` the source's `manhattanDistance` is `0`
while `euclideanDistance` is positive, so
`euclideanDistance(A, B) ≤ manhattanDistance(A, B)` fails there. -/
theorem euclideanDistance_not_le_manhattanDistance :
    manhattanDistance (0:ℝ) 0 1 (-1) = 0 ∧
    0 < euclideanDistance 0 0 1 (-1) ∧
    ¬ (euclideanDistance 0 0 1 (-1) ≤ manhattanDistance (0:ℝ) 0 1 (-1)) := by
  have h0 : manhattanDistance (0:ℝ) 0 1 (-1) = 0 := by
    unfold manhattanDistance
    norm_num [cAbs_zero]
  have hpos : 0 < euclideanDistance 0 0 1 (-1) := by
    unfold euclideanDistance
    exact Real.sqrt_pos.2 (by norm_num)
  exact ⟨h0, hpos, by rw [h0]; exact not_le.2 hpos⟩


/-! ## Segment-segment intersection: what the inner test decides -/

section Segments

variable {α : Type} [LinearOrderedField α]

end Segments

/-! ## Circle-circle intersection: necessary conditions -/

/-- C20: a true result of `circlesIntersect` forces both radii to be positive
and the centres to differ; hence concentric circles, and any circle of zero
or negative radius, give false. -/
theorem circlesIntersect_necessary (xC1 yC1 r1 xC2 yC2 r2 : ℝ) :
    (circlesIntersect xC1 yC1 r1 xC2 yC2 r2 = true →
      0 < r1 ∧ 0 < r2 ∧ ¬ (xC1 = xC2 ∧ yC1 = yC2)) ∧
    circlesIntersect xC1 yC1 r1 xC1 yC1 r2 = false ∧
    (r1 ≤ 0 ∨ r2 ≤ 0 → circlesIntersect xC1 yC1 r1 xC2 yC2 r2 = false) := by
  have key : ∀ a b c d : ℝ, circlesIntersect a b r1 c d r2 = true →
      0 < r1 ∧ 0 < r2 ∧ ¬ (a = c ∧ b = d) := by
    intro a b c d h
    simp only [circlesIntersect, Bool.and_eq_true, decide_eq_true_eq] at h
    obtain ⟨⟨h1, h2⟩, h3⟩ := h
    have hd := euclideanDistance_nonneg a b c d
    refine ⟨by linarith, by linarith, ?_⟩
    rintro ⟨rfl, rfl⟩
    have h0 : euclideanDistance a b a b = 0 := by
      rw [euclideanDistance_horizontal, sub_self, abs_zero]
    rw [h0] at h2 h3
    linarith
  refine ⟨key _ _ _ _, ?_, ?_⟩
  · rw [← Bool.not_eq_true]
    intro h
    exact (key _ _ _ _ h).2.2 ⟨rfl, rfl⟩
  · intro hr
    rw [← Bool.not_eq_true]
    intro h
    obtain ⟨h1, h2, _⟩ := key _ _ _ _ h
    rcases hr with hr | hr <;> linarith

/-- Witness for C20: the intersecting circles of the specification, centres
`(0,0)` and `(8,0)`, radii `5` and `4`. -/
theorem circlesIntersect_necessary_witness :
    circlesIntersect 0 0 5 8 0 4 = true ∧
    ((0:ℝ) < 5 ∧ (0:ℝ) < 4 ∧ ¬ ((0:ℝ) = 8 ∧ (0:ℝ) = 0)) :=
  have h : circlesIntersect 0 0 5 8 0 4 = true := by
    norm_num [circlesIntersect, euclideanDistance_horizontal]
  ⟨h, (circlesIntersect_necessary 0 0 5 8 0 4).1 h⟩

/-! ## Circle-segment intersection: soundness and endpoint order -/

/-- The value returned on line 58 is the square root of the value returned
on line 50. -/
theorem euclideanDistance_eq_sqrt_square (xA yA xB yB : ℝ) :
    euclideanDistance xA yA xB yB
      = Real.sqrt (squareEuclideanDistance xA yA xB yB) := rfl

/-- C16: for `r ≥ 0` and `A ≠ B`, a true result of `circleLineIntersect`
yields a point `P` of the segment `AB` with `distance(P, C) ≤ r`. -/
theorem circleLineIntersect_sound (xC yC r xA yA xB yB : ℝ)
    (hr : 0 ≤ r) (hAB : ¬ (xA = xB ∧ yA = yB))
    (h : circleLineIntersect xC yC r xA yA xB yB = true) :
    ∃ xP yP : ℝ, OnSegment xA yA xB yB xP yP ∧ euclideanDistance xP yP xC yC ≤ r := by
  have hU : ¬ (xB - xA = 0 ∧ yB - yA = 0) := by
    rintro ⟨h1, h2⟩
    exact hAB ⟨by linarith, by linarith⟩
  have hm := magnitude_pos hU
  simp only [circleLineIntersect] at h
  split_ifs at h with h1 h2
  · by_cases hA : euclideanDistance xA yA xC yC < r
    · exact ⟨xA, yA, ⟨0, le_refl 0, zero_le_one, by ring, by ring⟩, hA.le⟩
    · have hB : euclideanDistance xB yB xC yC < r := by
        by_contra hB
        simp [hA, hB] at h1
      exact ⟨xB, yB, ⟨1, zero_le_one, le_refl 1, by ring, by ring⟩, hB.le⟩
  · simp only [decide_eq_true_eq] at h
    rw [not_or, not_lt, not_lt, euclideanDistance_eq_magnitude] at h2
    obtain ⟨hd0, hdl⟩ := h2
    set m := magnitude (xB - xA) (yB - yA) with hm_def
    set d := dotProduct ((xB - xA) / m) ((yB - yA) / m) (xC - xA) (yC - yA) with hd_def
    refine ⟨(xB - xA) / m * d + xA, (yB - yA) / m * d + yA,
      ⟨d / m, div_nonneg hd0 hm.le, (div_le_one hm).2 hdl, ?_, ?_⟩, ?_⟩
    · field_simp
      ring
    · field_simp
      ring
    · rw [euclideanDistance_eq_sqrt_square, Real.sqrt_le_left hr]
      nlinarith [h]

/-- The scenario of the specification with the segment outside the circle:
`C = (0,0)`, `r = 1`, `A = (2,2)`, `B = (5,5)`.  Neither endpoint is inside
and the projection parameter is negative, so line 97 returns false. -/
theorem circleLineIntersect_outside_scenario :
    circleLineIntersect 0 0 1 2 2 5 5 = false := by
  have hA : ¬ euclideanDistance 2 2 0 0 < 1 := by
    unfold euclideanDistance
    exact not_lt.2 (Real.le_sqrt_of_sq_le (by norm_num))
  have hB : ¬ euclideanDistance 5 5 0 0 < 1 := by
    unfold euclideanDistance
    exact not_lt.2 (Real.le_sqrt_of_sq_le (by norm_num))
  have hm : 0 < magnitude (5 - 2) (5 - 2) := magnitude_pos (by norm_num)
  have hd : dotProduct ((5 - 2) / magnitude (5 - 2) (5 - 2))
      ((5 - 2) / magnitude (5 - 2) (5 - 2)) (0 - 2) (0 - 2) < 0 := by
    simp only [dotProduct]
    have : (0:ℝ) < (5 - 2) / magnitude (5 - 2) (5 - 2) := div_pos (by norm_num) hm
    nlinarith
  simp only [circleLineIntersect, hA, hB, decide_False, bne_self_eq_false,
    Bool.false_eq_true, if_false]
  rw [if_pos (Or.inl hd)]

/-- Witness for C16: the circle `C = (0,0)`, `r = 1` and the segment
`A = (-2,0)`, `B = (2,0)`, on which the function returns true; on the
outside segment `A = (2,2)`, `B = (5,5)` it returns false. -/
theorem circleLineIntersect_sound_witness :
    (circleLineIntersect 0 0 1 (-2) 0 2 0 = true ∧
      ∃ xP yP : ℝ, OnSegment (-2) 0 2 0 xP yP ∧ euclideanDistance xP yP 0 0 ≤ 1) ∧
    circleLineIntersect 0 0 1 2 2 5 5 = false :=
  have h : circleLineIntersect 0 0 1 (-2) 0 2 0 = true := by
    norm_num [circleLineIntersect, euclideanDistance_horizontal, magnitude_horizontal,
      dotProduct, squareEuclideanDistance]
  ⟨⟨h, circleLineIntersect_sound 0 0 1 (-2) 0 2 0 (by norm_num) (by norm_num) h⟩,
    circleLineIntersect_outside_scenario⟩

/-- C19: for `A ≠ B` the result of `circleLineIntersect` does not depend on
the order of the endpoints. -/
theorem circleLineIntersect_swap (xC yC r xA yA xB yB : ℝ)
    (hAB : ¬ (xA = xB ∧ yA = yB)) :
    circleLineIntersect xC yC r xA yA xB yB = circleLineIntersect xC yC r xB yB xA yA := by
  have hU : ¬ (xB - xA = 0 ∧ yB - yA = 0) := by
    rintro ⟨h1, h2⟩
    exact hAB ⟨by linarith, by linarith⟩
  have hm := magnitude_pos hU
  have hmm := magnitude_mul_self (xB - xA) (yB - yA)
  have hm' : magnitude (xA - xB) (yA - yB) = magnitude (xB - xA) (yB - yA) := by
    unfold magnitude
    congr 1
    ring
  have hl : euclideanDistance xA yA xB yB = magnitude (xB - xA) (yB - yA) := rfl
  have hl' : euclideanDistance xB yB xA yA = magnitude (xB - xA) (yB - yA) := by
    rw [euclideanDistance_eq_magnitude, hm']
  simp only [circleLineIntersect, hm', hl, hl']
  set m := magnitude (xB - xA) (yB - yA) with hm_def
  set d := dotProduct ((xB - xA) / m) ((yB - yA) / m) (xC - xA) (yC - yA) with hd_def
  have hd' : dotProduct ((xA - xB) / m) ((yA - yB) / m) (xC - xB) (yC - yB) = m - d := by
    rw [hd_def]
    simp only [dotProduct]
    field_simp
    linear_combination (-1 : ℝ) * hmm
  rw [hd']
  have hP1 : (xA - xB) / m * (m - d) + xB = (xB - xA) / m * d + xA := by
    field_simp
    ring
  have hP2 : (yA - yB) / m * (m - d) + yB = (yB - yA) / m * d + yA := by
    field_simp
    ring
  have hx : (decide (euclideanDistance xB yB xC yC < r)
        != decide (euclideanDistance xA yA xC yC < r))
      = (decide (euclideanDistance xA yA xC yC < r)
        != decide (euclideanDistance xB yB xC yC < r)) := by
    cases decide (euclideanDistance xB yB xC yC < r) <;>
      cases decide (euclideanDistance xA yA xC yC < r) <;> rfl
  rw [hP1, hP2, hx]
  have hc : (m - d < 0 ∨ m - d > m) ↔ (d < 0 ∨ d > m) := by
    constructor
    · rintro (h | h)
      · exact Or.inr (by linarith)
      · exact Or.inl (by linarith)
    · rintro (h | h)
      · exact Or.inr (by linarith)
      · exact Or.inl (by linarith)
  by_cases h1 : (decide (euclideanDistance xA yA xC yC < r)
      != decide (euclideanDistance xB yB xC yC < r)) = true
  · rw [if_pos h1, if_pos h1]
  · rw [if_neg h1, if_neg h1]
    by_cases h2 : d < 0 ∨ d > m
    · rw [if_pos h2, if_pos (hc.2 h2)]
    · rw [if_neg h2, if_neg (fun h => h2 (hc.1 h))]

/-- Witness for C19: circle `C = (0,0)`, `r = 1`, segment `(-2,0)-(2,0)` taken
in both orders. -/
theorem circleLineIntersect_swap_witness :
    ¬ ((-2:ℝ) = 2 ∧ (0:ℝ) = 0) ∧
    circleLineIntersect 0 0 1 (-2) 0 2 0 = circleLineIntersect 0 0 1 2 0 (-2) 0 :=
  ⟨by norm_num, circleLineIntersect_swap 0 0 1 (-2) 0 2 0 (by norm_num)⟩

end Geometry2d
